import Mathlib

/-!
# Verification of the vscode-context-builder core pipeline

Shallow embedding of the core build pipeline of the `context-builder`
VS Code extension:

* `FileResolver` (src/core/FileResolver.ts): scan → exclude → ignore-filter →
  force-include merge → output self-exclusion → total-count bound →
  content-safety filter → sort.
* `ContextBuilder` / formatters (src/core/ContextBuilder.ts, with the
  three-operation formatter contract and the token-convergence loop of the
  revision kept in the repository): tree rendering, formatter factory,
  header/body assembly with the 3-attempt token fixed-point loop.
* `Watcher` (src/core/Watcher.ts): the build scheduler's state machine,
  concurrency flags, `buildOnce`, `stop`, `setState` notification gating.

File-system effects (globbing, stat, read, write) are abstracted into
environment records holding their observable results; every definition is
translated from the TypeScript source, statement by statement.
-/

/-! ## POSIX path model

`path.resolve(root, f)` and `path.join(root, f)` from Node's `path` module,
for an absolute POSIX `root` (the workspace root).  Segment normalization
(`.`, `..`, empty segments) is the observable behaviour; Windows drive
letters are out of scope.  `String.splitOn`-style splitting is implemented
structurally over the character list so that all definitions reduce in the
kernel. -/

/-- Split a string on `/` exactly like JavaScript `s.split('/')`
(`"" ↦ [""]`, trailing separator yields a final empty segment). -/
def splitSlashAux : List Char → List Char → List String
  | [], acc => [String.mk acc.reverse]
  | c :: cs, acc =>
    if c = '/' then String.mk acc.reverse :: splitSlashAux cs []
    else splitSlashAux cs (c :: acc)

def splitSlash (s : String) : List String := splitSlashAux s.data []

/-- Join segments with `/` between them. -/
def joinSlash : List String → String
  | [] => ""
  | [s] => s
  | s :: rest => s ++ "/" ++ joinSlash (rest)

/-- POSIX path-segment normalization: drop empty and `.` segments, let `..`
remove the previous segment (clamping at the root). -/
def normSegs (segs : List String) : List String :=
  segs.foldl
    (fun acc seg =>
      if seg = "" then acc
      else if seg = "." then acc
      else if seg = ".." then acc.dropLast
      else acc ++ [seg])
    []

/-- Whether a POSIX path is absolute (starts with `/`). -/
def isAbsPath (s : String) : Bool :=
  match s.data with
  | '/' :: _ => true
  | _ => false

/-- Model of Node `path.resolve(root, p)` with `root` absolute:
if `p` is absolute it wins, otherwise it is appended to `root`; the result
is normalized to a canonical absolute path. -/
def resolvePath (root p : String) : String :=
  let s := if isAbsPath p then p else root ++ "/" ++ p
  "/" ++ joinSlash (normSegs (splitSlash s))

/-- Model of Node `path.join(root, p)` with `root` absolute: concatenate
with a separator and normalize. -/
def joinPath (root p : String) : String :=
  "/" ++ joinSlash (normSegs (splitSlash (root ++ "/" ++ p)))

/-! ## JavaScript `Set` deduplication and `Array.prototype.sort`

`Array.from(new Set(l))` keeps the first occurrence of each element in
insertion order.  `Array.prototype.sort()` (default comparator) sorts by
code-unit order, which on the code-point strings modelled here is the
lexicographic order `· ≤ ·` on `String`; since that comparator is a total
order the sorted result is unique, so the (stable, structurally recursive)
insertion sort produces exactly the array the engine's sort produces. -/

def jsSetInsert (acc : List String) (x : String) : List String :=
  if acc.contains x then acc else acc ++ [x]

/-- `Array.from(new Set(l))`: first-occurrence deduplication. -/
def jsSetDedup (l : List String) : List String := l.foldl jsSetInsert []

/-- The JS default sort order on strings, phrased over the character lists
so that it evaluates in the kernel; it coincides with `· ≤ ·` on `String`
(`strLe_iff`). -/
def strLeB (a b : String) : Prop := a.data ≤ b.data

instance : DecidableRel strLeB :=
  fun a b => inferInstanceAs (Decidable (a.data ≤ b.data))

instance : IsTotal String strLeB :=
  ⟨fun a b => total_of (· ≤ ·) a.data b.data⟩

instance : IsTrans String strLeB :=
  ⟨fun _ _ _ h h2 => le_trans h h2⟩

theorem strLe_iff (a b : String) : strLeB a b ↔ a ≤ b := by
  rw [String.le_iff_toList_le]
  exact Iff.rfl

/-- `files.sort()` on an array of path strings. -/
def jsSort (l : List String) : List String := l.insertionSort strLeB

theorem mem_jsSetInsert {a x : String} {acc : List String} :
    a ∈ jsSetInsert acc x ↔ a ∈ acc ∨ a = x := by
  unfold jsSetInsert
  split
  · next hc =>
      have hx : x ∈ acc := by simpa using hc
      exact ⟨fun ha => Or.inl ha, fun h => h.elim id (fun he => he ▸ hx)⟩
  · next hc => simp [List.mem_append]

theorem nodup_jsSetInsert {acc : List String} (h : acc.Nodup) (x : String) :
    (jsSetInsert acc x).Nodup := by
  unfold jsSetInsert
  split
  · next hc => exact h
  · next hc =>
      have hx : x ∉ acc := by simpa using hc
      rw [← List.concat_eq_append]
      exact h.concat hx

theorem mem_jsSetDedup_foldl {a : String} :
    ∀ (l acc : List String), a ∈ l.foldl jsSetInsert acc ↔ a ∈ acc ∨ a ∈ l := by
  intro l
  induction l with
  | nil => simp
  | cons x xs ih =>
    intro acc
    simp only [List.foldl_cons, ih, mem_jsSetInsert, List.mem_cons]
    tauto

theorem mem_jsSetDedup {a : String} {l : List String} :
    a ∈ jsSetDedup l ↔ a ∈ l := by
  unfold jsSetDedup
  simpa using mem_jsSetDedup_foldl l []

theorem nodup_jsSetDedup_foldl :
    ∀ (l acc : List String), acc.Nodup → (l.foldl jsSetInsert acc).Nodup := by
  intro l
  induction l with
  | nil => intro acc h; simpa using h
  | cons x xs ih =>
    intro acc h
    exact ih _ (nodup_jsSetInsert h x)

theorem nodup_jsSetDedup (l : List String) : (jsSetDedup l).Nodup :=
  nodup_jsSetDedup_foldl l [] List.nodup_nil

theorem mem_jsSort {a : String} {l : List String} : a ∈ jsSort l ↔ a ∈ l :=
  List.mem_insertionSort _

theorem nodup_jsSort {l : List String} (h : l.Nodup) : (jsSort l).Nodup :=
  ((List.perm_insertionSort _ l).nodup_iff).mpr h

theorem sorted_jsSort (l : List String) : List.Sorted (· ≤ ·) (jsSort l) :=
  (List.sorted_insertionSort strLeB l).imp (fun h => (strLe_iff _ _).mp h)

theorem length_jsSort (l : List String) : (jsSort l).length = l.length :=
  List.length_insertionSort _ l

/-! ## FileResolver (src/core/FileResolver.ts)

The resolver is constructed with the workspace root, a profile, the global
settings and an injected (possibly absent) git-ignore parser.  The
file-system-dependent pieces are abstracted into the environment:

* `scanned` — the result of `fast-glob` over `profile.include`
  (`dot: true, onlyFiles: true, absolute: false`);
* `forceScanned` — the result of `fast-glob` over `profile.forceInclude`;
* `excludeMatch f` — whether `micromatch` matches `f` against
  `profile.exclude ++ HARDCODED_EXCLUDES` (so `mm.not` keeps the
  non-matching files);
* `gitIgnores f` — whether the cached ignore parser filters `f` out;
* `fileBytes f` — the byte content of `f` (`none` when the file became
  inaccessible between scan and stat; `fs.stat` reports `(fileBytes f).length`
  as the size and `isBinary` samples the first 8192 bytes). -/

structure ResolveEnv where
  workspaceRoot : String
  outputFile : String
  forceInclude : List String
  useGitIgnore : Bool
  hasIgnoreParser : Bool
  maxTotalFiles : Nat
  maxFileSizeKB : Nat
  scanned : List String
  forceScanned : List String
  excludeMatch : String → Bool
  gitIgnores : String → Bool
  fileBytes : String → Option (List Nat)

/-- Stage 2, `applyExclude`: `mm.not(files, profile.exclude ++ HARDCODED_EXCLUDES)`. -/
def applyExclude (env : ResolveEnv) (files : List String) : List String :=
  files.filter (fun f => !env.excludeMatch f)

/-- Stage 3: `if (profile.options.useGitIgnore && gitIgnoreParser) files = gitIgnoreParser.filter(files)`. -/
def gitIgnoreStage (env : ResolveEnv) (files : List String) : List String :=
  if env.useGitIgnore && env.hasIgnoreParser then
    files.filter (fun f => !env.gitIgnores f)
  else files

/-- Stage 4, `mergeForceInclude`: skip when there are no force-include
patterns; otherwise union the force-scanned files into a JS `Set` seeded
with the surviving files and convert back to an array. -/
def mergeForceInclude (env : ResolveEnv) (files : List String) : List String :=
  if env.forceInclude.isEmpty then files
  else jsSetDedup (files ++ env.forceScanned)

/-- Stage 5, `excludeOutputFile`: drop every file whose `path.resolve`
against the workspace root equals the resolved output path. -/
def excludeOutputFile (env : ResolveEnv) (files : List String) : List String :=
  let absoluteOutput := resolvePath env.workspaceRoot env.outputFile
  files.filter (fun f => resolvePath env.workspaceRoot f != absoluteOutput)

/-- `isBinary`: sample the first 8192 bytes; any null byte classifies the
file as binary (a read error also classifies it as binary, covered by
`fileBytes f = none` which `filterByContent` already drops at the stat). -/
def isBinaryBytes (bytes : List Nat) : Bool :=
  (bytes.take 8192).any (fun b => b == 0)

/-- Per-file check of stage 7, `filterByContent`: stat the file (drop when
inaccessible), drop when larger than `maxFileSizeKB * 1024` bytes, drop
when the binary heuristic trips. -/
def passesContent (env : ResolveEnv) (f : String) : Bool :=
  match env.fileBytes f with
  | none => false
  | some bytes =>
      decide (bytes.length ≤ env.maxFileSizeKB * 1024) && !isBinaryBytes bytes

/-- Stage 7, `filterByContent`. -/
def filterByContent (env : ResolveEnv) (files : List String) : List String :=
  files.filter (passesContent env)

/-- Stages 1–5 of `FileResolver.resolve`: the surviving set checked against
`maxTotalFiles` before the content-safety stage. -/
def survivorsBeforeSafety (env : ResolveEnv) : List String :=
  excludeOutputFile env
    (mergeForceInclude env (gitIgnoreStage env (applyExclude env env.scanned)))

/-- The error thrown by the hard-limit check of `FileResolver.resolve`. -/
def limitError (count limit : Nat) : String :=
  "Total files (" ++ toString count ++ ") exceeds limit (" ++ toString limit ++
    "). Adjust your include/exclude patterns."

/-- `FileResolver.resolve`: the whole pipeline.  Throwing is modelled with
`Except`; the hard-limit check happens before the content-safety stage and
the surviving files are sorted lexicographically at the end. -/
def resolve (env : ResolveEnv) : Except String (List String) :=
  let files := survivorsBeforeSafety env
  if files.length > env.maxTotalFiles then
    .error (limitError files.length env.maxTotalFiles)
  else
    .ok (jsSort (filterByContent env files))

/-- `FileResolver.getWatchPatterns`. -/
def getWatchPatterns (includePatterns forceIncludePatterns : List String) : List String :=
  includePatterns ++ forceIncludePatterns

theorem nodup_survivorsBeforeSafety (env : ResolveEnv)
    (h : env.scanned.Nodup) : (survivorsBeforeSafety env).Nodup := by
  unfold survivorsBeforeSafety excludeOutputFile mergeForceInclude gitIgnoreStage applyExclude
  apply List.Nodup.filter
  by_cases hfi : env.forceInclude.isEmpty
  · simp only [hfi, if_pos]
    by_cases hg : env.useGitIgnore && env.hasIgnoreParser
    · simp only [hg, if_pos]
      exact (h.filter _).filter _
    · simp only [hg]
      simp only [Bool.false_eq_true, if_neg, not_false_iff]
      exact h.filter _
  · simp only [hfi]
    simp only [Bool.false_eq_true, if_neg, not_false_iff]
    exact nodup_jsSetDedup _

theorem resolve_ok_iff (env : ResolveEnv) (res : List String) :
    resolve env = .ok res ↔
      (survivorsBeforeSafety env).length ≤ env.maxTotalFiles ∧
        res = jsSort (filterByContent env (survivorsBeforeSafety env)) := by
  unfold resolve
  by_cases h : (survivorsBeforeSafety env).length > env.maxTotalFiles
  · simp [h, Nat.not_le.mpr h]
  · simp only [h, if_neg, not_false_iff, Bool.false_eq_true]
    constructor
    · intro he
      exact ⟨Nat.not_lt.mp h, (Except.ok.inj he).symm⟩
    · rintro ⟨_, rfl⟩
      rfl

/-! ## Resolver claims -/

/-- C1: for every profile, the file list returned by `FileResolver.resolve`
never contains the profile's own output path, where the comparison is made
on absolute, normalized paths (`path.resolve` against the workspace root on
both sides). -/
theorem resolve_excludes_own_output (env : ResolveEnv) (res : List String)
    (hok : resolve env = .ok res) :
    ∀ f ∈ res,
      resolvePath env.workspaceRoot f ≠ resolvePath env.workspaceRoot env.outputFile := by
  intro f hf
  obtain ⟨hlen, hres⟩ := (resolve_ok_iff env res).mp hok
  subst hres
  rw [mem_jsSort] at hf
  unfold filterByContent at hf
  have hf2 : f ∈ survivorsBeforeSafety env := (List.mem_filter.mp hf).1
  simp only [survivorsBeforeSafety, excludeOutputFile] at hf2
  have h3 := (List.mem_filter.mp hf2).2
  simpa using h3

def envC1 : ResolveEnv where
  workspaceRoot := "/proj"
  outputFile := ".context/out.md"
  forceInclude := []
  useGitIgnore := false
  hasIgnoreParser := false
  maxTotalFiles := 500
  maxFileSizeKB := 1024
  scanned := ["src/a.ts", ".context/out.md"]
  forceScanned := []
  excludeMatch := fun _ => false
  gitIgnores := fun _ => false
  fileBytes := fun _ => some [104, 105]

theorem resolve_excludes_own_output_witness :
    resolvePath "/proj" "src/a.ts" ≠ resolvePath "/proj" ".context/out.md" :=
  resolve_excludes_own_output envC1 ["src/a.ts"] rfl "src/a.ts" (by decide)

/-- C2: every successfully resolved list is lexicographically sorted,
duplicate-free (`fast-glob` returns unique matches, hence the `Nodup`
hypothesis on the scan results) and no longer than `maxTotalFiles`; and
whenever the surviving set before the content-safety stage exceeds
`maxTotalFiles`, `resolve` fails with the error naming the count and the
limit instead of returning a truncated result. -/
theorem resolve_sorted_nodup_bounded (env : ResolveEnv)
    (hscan : env.scanned.Nodup) :
    (∀ res, resolve env = .ok res →
        List.Sorted (· ≤ ·) res ∧ res.Nodup ∧ res.length ≤ env.maxTotalFiles) ∧
      ((survivorsBeforeSafety env).length > env.maxTotalFiles →
        resolve env =
          .error (limitError (survivorsBeforeSafety env).length env.maxTotalFiles)) := by
  constructor
  · intro res hok
    obtain ⟨hlen, hres⟩ := (resolve_ok_iff env res).mp hok
    subst hres
    refine ⟨sorted_jsSort _, nodup_jsSort ?_, ?_⟩
    · exact (nodup_survivorsBeforeSafety env hscan).filter _
    · calc (jsSort (filterByContent env (survivorsBeforeSafety env))).length
          = (filterByContent env (survivorsBeforeSafety env)).length := length_jsSort _
        _ ≤ (survivorsBeforeSafety env).length := List.length_filter_le _ _
        _ ≤ env.maxTotalFiles := hlen
  · intro hgt
    unfold resolve
    simp [hgt]

def envC2 : ResolveEnv where
  workspaceRoot := "/proj"
  outputFile := "ctx.md"
  forceInclude := []
  useGitIgnore := false
  hasIgnoreParser := false
  maxTotalFiles := 500
  maxFileSizeKB := 1024
  scanned := ["b.md", "a.md"]
  forceScanned := []
  excludeMatch := fun _ => false
  gitIgnores := fun _ => false
  fileBytes := fun _ => some [104]

theorem resolve_sorted_nodup_bounded_witness :
    List.Sorted (· ≤ ·) [("a.md" : String), "b.md"] ∧
      List.Nodup [("a.md" : String), "b.md"] ∧
      [("a.md" : String), "b.md"].length ≤ 500 :=
  (resolve_sorted_nodup_bounded envC2 (by decide)).1 ["a.md", "b.md"] rfl

/-- C3: every file matched by a force-include pattern appears in the
resolved list even if the exclude patterns or the ignore-file rules match
it, provided it survives the self-exclusion, total-count and content-safety
stages. -/
theorem forceInclude_bypasses_filters (env : ResolveEnv) (res : List String) (f : String)
    (hok : resolve env = .ok res)
    (hfi : env.forceInclude ≠ [])
    (hf : f ∈ env.forceScanned)
    (hout : resolvePath env.workspaceRoot f ≠ resolvePath env.workspaceRoot env.outputFile)
    (hsafe : passesContent env f = true) :
    f ∈ res := by
  obtain ⟨hlen, hres⟩ := (resolve_ok_iff env res).mp hok
  subst hres
  rw [mem_jsSort]
  unfold filterByContent
  rw [List.mem_filter]
  refine ⟨?_, hsafe⟩
  simp only [survivorsBeforeSafety, excludeOutputFile]
  rw [List.mem_filter]
  constructor
  · unfold mergeForceInclude
    have hne : env.forceInclude.isEmpty = false := by
      cases hl : env.forceInclude with
      | nil => exact absurd hl hfi
      | cons a l => simp
    simp only [hne, Bool.false_eq_true, if_neg, not_false_iff]
    rw [mem_jsSetDedup, List.mem_append]
    exact Or.inr hf
  · simpa using hout

def envC3 : ResolveEnv where
  workspaceRoot := "/proj"
  outputFile := "ctx.md"
  forceInclude := ["**/*.test.ts"]
  useGitIgnore := true
  hasIgnoreParser := true
  maxTotalFiles := 500
  maxFileSizeKB := 1024
  scanned := ["src/a.ts", "src/a.test.ts"]
  forceScanned := ["src/a.test.ts"]
  excludeMatch := fun f => f == "src/a.test.ts"
  gitIgnores := fun f => f == "src/a.test.ts"
  fileBytes := fun _ => some [102, 111, 111]

theorem forceInclude_bypasses_filters_witness :
    "src/a.test.ts" ∈ ["src/a.test.ts", "src/a.ts"] :=
  forceInclude_bypasses_filters envC3 ["src/a.test.ts", "src/a.ts"] "src/a.test.ts"
    rfl (by decide) (by decide) (by decide) (by decide)

/-- C8: binary detection samples only the first 8192 bytes: any file whose
sample contains a null byte is excluded from the resolved set; any file
whose sample is null-free and whose size fits `maxFileSizeKB * 1024`
survives the content-safety stage (so it appears in the result whenever it
survived the earlier stages), and the heuristic depends only on the first
8192 bytes of the content. -/
theorem binary_detection_first8kb (env : ResolveEnv) :
    (∀ res f bytes, resolve env = .ok res → env.fileBytes f = some bytes →
        0 ∈ bytes.take 8192 → f ∉ res) ∧
      (∀ res f bytes, resolve env = .ok res → f ∈ survivorsBeforeSafety env →
        env.fileBytes f = some bytes → bytes.length ≤ env.maxFileSizeKB * 1024 →
        (∀ b ∈ bytes.take 8192, b ≠ 0) → f ∈ res) ∧
      (∀ b1 b2 : List Nat, b1.take 8192 = b2.take 8192 →
        isBinaryBytes b1 = isBinaryBytes b2) := by
  refine ⟨?_, ?_, ?_⟩
  · intro res f bytes hok hbytes h0 hf
    obtain ⟨hlen, hres⟩ := (resolve_ok_iff env res).mp hok
    subst hres
    rw [mem_jsSort] at hf
    unfold filterByContent at hf
    have hpass := (List.mem_filter.mp hf).2
    unfold passesContent at hpass
    rw [hbytes] at hpass
    have hpass2 :
        (decide (bytes.length ≤ env.maxFileSizeKB * 1024) && !isBinaryBytes bytes) = true :=
      hpass
    have hbin : isBinaryBytes bytes = true := by
      unfold isBinaryBytes
      rw [List.any_eq_true]
      exact ⟨0, h0, by simp⟩
    rw [hbin] at hpass2
    simp at hpass2
  · intro res f bytes hok hsurv hbytes hsize hnull
    obtain ⟨hlen, hres⟩ := (resolve_ok_iff env res).mp hok
    subst hres
    rw [mem_jsSort]
    unfold filterByContent
    rw [List.mem_filter]
    refine ⟨hsurv, ?_⟩
    unfold passesContent
    rw [hbytes]
    show (decide (bytes.length ≤ env.maxFileSizeKB * 1024) && !isBinaryBytes bytes) = true
    have hbin : isBinaryBytes bytes = false := by
      unfold isBinaryBytes
      rw [List.any_eq_false]
      intro b hb
      simpa using hnull b hb
    rw [hbin]
    simpa using hsize
  · intro b1 b2 h
    unfold isBinaryBytes
    rw [h]

def envC8 : ResolveEnv where
  workspaceRoot := "/proj"
  outputFile := "ctx.md"
  forceInclude := []
  useGitIgnore := false
  hasIgnoreParser := false
  maxTotalFiles := 500
  maxFileSizeKB := 1024
  scanned := ["a.txt", "bin.dat"]
  forceScanned := []
  excludeMatch := fun _ => false
  gitIgnores := fun _ => false
  fileBytes := fun f => if f == "bin.dat" then some [0] else some [104]

theorem binary_detection_first8kb_witness :
    "bin.dat" ∉ [("a.txt" : String)] :=
  (binary_detection_first8kb envC8).1 ["a.txt"] "bin.dat" [0]
    rfl rfl (by decide)

/-! ## ContextBuilder (src/core/ContextBuilder.ts)

The document assembler of the revision with the three-operation formatter
contract (`formatHeader` / `formatBody` / `assemble`), the strict formatter
factory and the 3-attempt token-convergence loop.  `Date.toISOString()`
output is carried as an opaque string, and `(x / 1024).toFixed(1)` is
modelled by exact decimal rounding (a byte count divided by 1024 is exactly
representable as an IEEE double, and `toFixed` rounds to nearest with ties
away from zero). -/

structure FileData where
  path : String
  content : String
  size : Nat
  lang : String

structure BuildStatsM where
  fileCount : Nat
  totalSizeBytes : Nat
  tokenCount : Nat
  timestamp : String

/-- `(bytes / 1024).toFixed(1)`. -/
def toFixed1KB (bytes : Nat) : String :=
  let n := (bytes * 10 + 512) / 1024
  toString (n / 10) ++ "." ++ toString (n % 10)

/-- The nested name-keyed tree `type TreeNode = { [key: string]: TreeNode }`,
as an association list preserving JS object key-insertion order. -/
inductive JsTree where
  | node (children : List (String × JsTree)) : JsTree

def JsTree.children : JsTree → List (String × JsTree)
  | .node cs => cs

/-- One pass of `generateTree`'s insertion walk for a single slash-split
path: walk existing keys (`current = current[part]`), creating missing
children (`current[part] = {}`, appended in insertion order). -/
def insertSegs : List (String × JsTree) → List String → List (String × JsTree)
  | cs, [] => cs
  | cs, seg :: rest =>
    match cs.find? (fun e => e.1 == seg) with
    | some e =>
      cs.map (fun e2 =>
        if e2.1 == seg then (seg, JsTree.node (insertSegs e.2.children rest)) else e2)
    | none => cs ++ [(seg, JsTree.node (insertSegs [] rest))]

/-- Whether a tree entry is a leaf (`Object.keys(node[a]).length === 0`). -/
def isLeafE (e : String × JsTree) : Bool := e.2.children.isEmpty

/-- The comparator of `renderTree`: directories sort before leaves, and
within the same kind keys compare with `a.localeCompare(b)`.  The
`localeCompare` collation is determined by the host's default locale (ICU
collation, e.g. case-insensitive-first ordering), so it is kept abstract
as a comparison function `coll` on names; the theorems assume only that it
is total and transitive, which every consistent collator satisfies. -/
def treeLe (coll : String → String → Bool) (a b : String × JsTree) : Bool :=
  if isLeafE a == isLeafE b then coll a.1 b.1 else !isLeafE a

def treeEntryR (coll : String → String → Bool) (a b : String × JsTree) : Prop :=
  treeLe coll a b = true

instance (coll : String → String → Bool) : DecidableRel (treeEntryR coll) :=
  fun a b => inferInstanceAs (Decidable (treeLe coll a b = true))

theorem strLeB_trans {a b c : String} (h1 : strLeB a b) (h2 : strLeB b c) :
    strLeB a c := le_trans h1 h2

theorem strLeB_total (a b : String) : strLeB a b ∨ strLeB b a :=
  le_total a.data b.data

theorem treeLe_trans {coll : String → String → Bool}
    (htrans : ∀ x y z, coll x y = true → coll y z = true → coll x z = true)
    {a b c : String × JsTree}
    (hab : treeLe coll a b = true) (hbc : treeLe coll b c = true) :
    treeLe coll a c = true := by
  unfold treeLe at hab hbc ⊢
  cases hA : isLeafE a <;> cases hB : isLeafE b <;> cases hC : isLeafE c <;>
    simp_all
  · exact htrans _ _ _ hab hbc
  · exact htrans _ _ _ hab hbc

theorem treeLe_total {coll : String → String → Bool}
    (htotal : ∀ x y, coll x y = true ∨ coll y x = true)
    (a b : String × JsTree) :
    treeLe coll a b = true ∨ treeLe coll b a = true := by
  unfold treeLe
  cases hA : isLeafE a <;> cases hB : isLeafE b <;> simp_all

/-- `Object.keys(node).sort(comparator)`: a stable sort by the comparator
(ES2019 `Array.prototype.sort` is stable; insertion sort is as well). -/
def sortEntries (coll : String → String → Bool) (cs : List (String × JsTree)) :
    List (String × JsTree) :=
  cs.insertionSort (treeEntryR coll)

/-- `renderTree`: depth-first rendering with box-drawing connectors.  The
source recursion is structurally decreasing along the nested tree; we make
termination explicit with a depth fuel (`generateTree` passes a bound
exceeding any possible depth), keeping every definition kernel-reducible. -/
def renderForest (coll : String → String → Bool) :
    Nat → List (String × JsTree) → String → String
  | 0, _, _ => ""
  | fuel+1, cs, pre =>
    let keys := sortEntries coll cs
    String.join (keys.enum.map (fun ei =>
      let isLast := ei.1 == keys.length - 1
      let marker := if isLast then "└── " else "├── "
      let childPrefix := if isLast then "    " else "│   "
      pre ++ marker ++ ei.2.1 ++ "\n" ++
        (if ei.2.2.children.isEmpty then ""
         else renderForest coll fuel ei.2.2.children (pre ++ childPrefix))))

/-- `generateTree(files)`: build the nested tree from the slash-split
relative paths, then render it from the root with an empty prefix. -/
def generateTree (coll : String → String → Bool) (files : List String) : String :=
  let root := files.foldl (fun cs f => insertSegs cs (splitSlash f)) []
  renderForest coll (1 + (files.map (fun f => (splitSlash f).length)).sum) root ""

/-! ### Formatters and the factory -/

structure IContextFormatter where
  formatHeader : BuildStatsM → String → String
  formatBody : List FileData → String → String → String → String
  assemble : String → String → String

def markdownFormatter : IContextFormatter where
  formatHeader := fun stats profileName =>
    String.intercalate "\n"
      ["# Project Context: " ++ profileName,
       "> Generated: " ++ stats.timestamp,
       "> Files: " ++ toString stats.fileCount,
       "> Total Size: " ++ toFixed1KB stats.totalSizeBytes ++ " KB",
       "> Estimated Tokens: " ++ toString stats.tokenCount]
  formatBody := fun filesData treePart preamblePart _workspaceRoot =>
    let body1 := if preamblePart ≠ "" then "# Preamble\n\n" ++ preamblePart ++ "\n\n" else ""
    let body2 := body1 ++
      (if treePart ≠ "" then "# Project Tree\n\n```\n" ++ treePart ++ "```\n\n" else "")
    let body3 := body2 ++ "# Processed Files\n\n"
    let fileSections := filesData.map (fun fd =>
      String.intercalate "\n"
        ["## Path: " ++ fd.path ++ " (Size: " ++ toFixed1KB fd.size ++ " KB)",
         "",
         "```" ++ fd.lang,
         fd.content,
         "```"])
    body3 ++ String.intercalate "\n\n" fileSections
  assemble := fun header body => header ++ "\n\n" ++ body

/-- The control characters stripped by the XML formatter's
`/[\x00-\x08\x0B\x0C\x0E-\x1F]/g` regular expression. -/
def isStrippedControl (c : Char) : Bool :=
  decide (c.toNat ≤ 8) || c.toNat == 11 || c.toNat == 12 ||
    (decide (14 ≤ c.toNat) && decide (c.toNat ≤ 31))

def stripControl (s : String) : String :=
  String.mk (s.data.filter (fun c => !isStrippedControl c))

def escapeXmlText (s : String) : String :=
  ((s.replace "&" "&amp;").replace "<" "&lt;").replace ">" "&gt;"

def escapeCdata (s : String) : String :=
  (stripControl s).replace "]]>" "]]]]><![CDATA[>"

def escapeXmlAttr (s : String) : String :=
  (((((stripControl s).replace "&" "&amp;").replace "<" "&lt;").replace ">"
      "&gt;").replace "\"" "&quot;").replace "\x27" "&apos;"

def xmlFormatHeader (stats : BuildStatsM) (profileName : String) : String :=
  String.intercalate "\n"
    ["  <metadata>",
     "    <profile>" ++ escapeXmlText profileName ++ "</profile>",
     "    <generated_at>" ++ stats.timestamp ++ "</generated_at>",
     "    <stats files=\"" ++ toString stats.fileCount ++ "\" size=\"" ++
       toFixed1KB stats.totalSizeBytes ++ " KB\" tokens=\"" ++
       toString stats.tokenCount ++ "\" />",
     "  </metadata>"]

def xmlFormatBody (filesData : List FileData) (treePart preamblePart workspaceRoot : String) :
    String :=
  let parts :=
    (if preamblePart ≠ "" then
      ["  <instructions>",
       "    <![CDATA[\n" ++ escapeCdata preamblePart ++ "\n    ]]>",
       "  </instructions>"]
     else []) ++
    (if treePart ≠ "" then
      ["  <file_tree>",
       "    <![CDATA[\n" ++ escapeCdata treePart ++ "    ]]>",
       "  </file_tree>"]
     else []) ++
    ["  <files workspace=\"" ++ escapeXmlAttr workspaceRoot ++ "\">"] ++
    (filesData.map (fun fd =>
      ["    <file path=\"" ++ escapeXmlAttr fd.path ++ "\" language=\"" ++
         escapeXmlAttr fd.lang ++ "\" size=\"" ++ toFixed1KB fd.size ++ " KB\">",
       "      <![CDATA[\n" ++ escapeCdata fd.content ++ "\n      ]]>",
       "    </file>"])).flatten ++
    ["  </files>"]
  String.intercalate "\n" parts

def xmlFormatter : IContextFormatter where
  formatHeader := xmlFormatHeader
  formatBody := xmlFormatBody
  assemble := fun header body =>
    "<?xml version=\"1.0\" encoding=\"UTF-8\"?>\n<project_context>\n" ++ header ++
      "\n" ++ body ++ "\n</project_context>"

/-- `FormatterFactory.getFormatter`: the switch over the configured format
name; the default branch throws `Unsupported output format`. -/
def getFormatter (format : String) : Except String IContextFormatter :=
  if format = "markdown" then .ok markdownFormatter
  else if format = "xml" then .ok xmlFormatter
  else .error ("Unsupported output format: " ++ format)

/-! ### `ContextBuilder.build` -/

/-- The token-convergence loop `for (let i = 0; i < 3; i++) { ... }`:
render a header from the current estimate, assemble, recount; stop when the
recount equals the estimate, otherwise carry the recount into the next
iteration; after the cap the last computed count and output stand. -/
def convergeLoop (count : String → Nat) (hdr : Nat → String)
    (asm : String → String → String) (body : String) :
    Nat → Nat → String → Nat × String
  | 0, est, out => (est, out)
  | fuel+1, est, _ =>
    let header := hdr est
    let output := asm header body
    let calcd := count output
    if calcd = est then (est, output)
    else convergeLoop count hdr asm body fuel calcd output

/-- Environment of one `ContextBuilder.build` call: the resolved file list,
the per-file read results (`readFileData`, `none` when the read fails and
the file is skipped), the token counter and the profile fields used. -/
structure BuildEnv where
  workspaceRoot : String
  profileName : String
  outputFile : String
  showFileTree : Bool
  preamble : String
  outputFormat : Option String
  files : List String
  readFile : String → Option FileData
  count : String → Nat
  collator : String → String → Bool
  timestamp : String

/-- `ContextBuilder.build`, with the artifact write modelled by returning
the written text: read the files (skipping failures), compute the body
parts once, run the convergence loop with the body token count as the
initial estimate, and return the final stats plus the written output. -/
def buildM (env : BuildEnv) : Except String (BuildStatsM × String) :=
  let filesData := env.files.filterMap env.readFile
  let totalSizeBytes := (filesData.map (·.size)).sum
  let treePart := if env.showFileTree then generateTree env.collator env.files else ""
  let preamblePart := env.preamble
  match env.outputFormat with
  | none => .error "Profile outputFormat is not defined. Check configuration."
  | some format =>
    if format = "" then .error "Profile outputFormat is not defined. Check configuration."
    else
      match getFormatter format with
      | .error e => .error e
      | .ok formatter =>
        let body := formatter.formatBody filesData treePart preamblePart env.workspaceRoot
        let result := convergeLoop env.count
          (fun t =>
            formatter.formatHeader
              ⟨filesData.length, totalSizeBytes, t, env.timestamp⟩ env.profileName)
          formatter.assemble body 3 (env.count body) ""
        .ok (⟨filesData.length, totalSizeBytes, result.1, env.timestamp⟩, result.2)

/-! ## Assembler claims -/

theorem treeLe_elim {coll : String → String → Bool} {a b : String × JsTree}
    (h : treeLe coll a b = true) :
    (isLeafE a = false ∧ isLeafE b = true) ∨
      (isLeafE a = isLeafE b ∧ coll a.1 b.1 = true) := by
  unfold treeLe at h
  cases hA : isLeafE a <;> cases hB : isLeafE b <;> simp_all

/-- C9: for every (total, transitive) `localeCompare` collation, the
rendered tree lists directories (entries with children) before files (leaf
entries) at every level, and breaks ties within the same kind by the name
comparison — the lexicographic order that collation implements on names.
For the path set `["b.txt", "a/x.txt"]` the directory `a` (with its child
`x.txt`) renders before `b.txt` under every collator (the kinds differ, so
no name tie-break is involved).  The rendering is a pure function of the
path list (and the fixed collator) by construction. -/
theorem tree_renders_dirs_before_files :
    (∀ coll : String → String → Bool,
        (∀ x y z, coll x y = true → coll y z = true → coll x z = true) →
        (∀ x y, coll x y = true ∨ coll y x = true) →
        ∀ cs : List (String × JsTree),
          List.Pairwise
            (fun a b =>
              (isLeafE a = false ∧ isLeafE b = true) ∨
                (isLeafE a = isLeafE b ∧ coll a.1 b.1 = true))
            (sortEntries coll cs)) ∧
      ∀ coll : String → String → Bool,
        generateTree coll ["b.txt", "a/x.txt"] =
          "├── a\n│   └── x.txt\n└── b.txt\n" := by
  constructor
  · intro coll htrans htotal cs
    haveI : IsTrans (String × JsTree) (treeEntryR coll) :=
      ⟨fun _ _ _ => treeLe_trans htrans⟩
    haveI : IsTotal (String × JsTree) (treeEntryR coll) :=
      ⟨fun a b => treeLe_total htotal a b⟩
    exact (List.sorted_insertionSort (treeEntryR coll) cs).imp
      (fun h => treeLe_elim h)
  · intro coll
    rfl

/-- A concrete collator: plain code-unit comparison (what `localeCompare`
degenerates to under a collation-free locale). -/
def collCodeUnit : String → String → Bool := fun a b => decide (strLeB a b)

theorem collCodeUnit_trans :
    ∀ x y z, collCodeUnit x y = true → collCodeUnit y z = true →
      collCodeUnit x z = true := by
  intro x y z h1 h2
  simp only [collCodeUnit, decide_eq_true_eq] at h1 h2 ⊢
  exact strLeB_trans h1 h2

theorem collCodeUnit_total :
    ∀ x y, collCodeUnit x y = true ∨ collCodeUnit y x = true := by
  intro x y
  simp only [collCodeUnit, decide_eq_true_eq]
  exact strLeB_total x y

theorem tree_renders_dirs_before_files_witness :
    List.Pairwise
      (fun a b =>
        (isLeafE a = false ∧ isLeafE b = true) ∨
          (isLeafE a = isLeafE b ∧ collCodeUnit a.1 b.1 = true))
      (sortEntries collCodeUnit
        [("b.txt", JsTree.node []), ("a", JsTree.node [("x.txt", JsTree.node [])])]) :=
  tree_renders_dirs_before_files.1 collCodeUnit collCodeUnit_trans collCodeUnit_total
    [("b.txt", JsTree.node []), ("a", JsTree.node [("x.txt", JsTree.node [])])]

/-- C5: formatter selection by the configured format name is strict: any
name other than `markdown` and `xml` makes the factory throw the
`Unsupported output format` configuration error (and `build` propagates
it); a missing or empty format name is likewise a configuration error.
There is no silent fallback to a default formatter. -/
theorem formatter_factory_rejects_unknown :
    (∀ format : String, format ≠ "markdown" → format ≠ "xml" →
        getFormatter format = .error ("Unsupported output format: " ++ format)) ∧
      getFormatter "markdown" = .ok markdownFormatter ∧
      getFormatter "xml" = .ok xmlFormatter ∧
      (∀ (env : BuildEnv) (format : String), env.outputFormat = some format →
        format ≠ "markdown" → format ≠ "xml" → format ≠ "" →
        buildM env = .error ("Unsupported output format: " ++ format)) ∧
      (∀ env : BuildEnv, env.outputFormat = none →
        buildM env = .error "Profile outputFormat is not defined. Check configuration.") := by
  refine ⟨?_, rfl, rfl, ?_, ?_⟩
  · intro format hmd hxml
    unfold getFormatter
    rw [if_neg hmd, if_neg hxml]
  · intro env format hof hmd hxml hne
    have hgf : getFormatter format = .error ("Unsupported output format: " ++ format) := by
      unfold getFormatter
      rw [if_neg hmd, if_neg hxml]
    simp only [buildM, hof, hgf]
    rw [if_neg hne]
  · intro env hof
    simp only [buildM, hof]

theorem formatter_factory_rejects_unknown_witness :
    getFormatter "yaml" = .error ("Unsupported output format: " ++ "yaml") :=
  formatter_factory_rejects_unknown.1 "yaml" (by decide) (by decide)

theorem convergeLoop_unfold3 (count : String → Nat) (hdr : Nat → String)
    (asm : String → String → String) (body : String) (est : Nat) (out : String) :
    convergeLoop count hdr asm body 3 est out =
      (let o1 := asm (hdr est) body
       let c1 := count o1
       if c1 = est then (est, o1)
       else
         let o2 := asm (hdr c1) body
         let c2 := count o2
         if c2 = c1 then (c1, o2)
         else
           let o3 := asm (hdr c2) body
           let c3 := count o3
           if c3 = c2 then (c2, o3) else (c3, o3)) := rfl

/-- C4: `build` computes the body once and then iterates header rendering,
assembly and token recount until the recount equals the previous estimate
or the cap of 3 attempts is reached, accepting the last computed count.
Stated as a closed form: writing `e₀` for the body's token count and
`eᵢ₊₁` for the token count of the assembly whose header shows `eᵢ`, the
loop returns `(e₁ = e₀ ? e₀ : e₂ = e₁ ? e₁ : e₃)` together with the last
assembled output, and `build` produces exactly this loop's result from the
once-computed body. -/
theorem build_token_convergence :
    (∀ (count : String → Nat) (hdr : Nat → String)
        (asm : String → String → String) (body : String),
        convergeLoop count hdr asm body 3 (count body) "" =
          (let e0 := count body
           let e1 := count (asm (hdr e0) body)
           let e2 := count (asm (hdr e1) body)
           let e3 := count (asm (hdr e2) body)
           if e1 = e0 then (e0, asm (hdr e0) body)
           else if e2 = e1 then (e1, asm (hdr e1) body)
           else (e3, asm (hdr e2) body))) ∧
      (∀ (env : BuildEnv) (format : String) (fmt : IContextFormatter),
        env.outputFormat = some format → format ≠ "" →
        getFormatter format = .ok fmt →
        buildM env =
          (let filesData := env.files.filterMap env.readFile
           let totalSizeBytes := (filesData.map (·.size)).sum
           let treePart := if env.showFileTree then generateTree env.collator env.files else ""
           let body := fmt.formatBody filesData treePart env.preamble env.workspaceRoot
           let result := convergeLoop env.count
             (fun t =>
               fmt.formatHeader
                 ⟨filesData.length, totalSizeBytes, t, env.timestamp⟩ env.profileName)
             fmt.assemble body 3 (env.count body) ""
           .ok (⟨filesData.length, totalSizeBytes, result.1, env.timestamp⟩, result.2))) := by
  constructor
  · intro count hdr asm body
    rw [convergeLoop_unfold3]
    by_cases h1 : count (asm (hdr (count body)) body) = count body
    · simp [h1]
    · by_cases h2 :
          count (asm (hdr (count (asm (hdr (count body)) body))) body) =
            count (asm (hdr (count body)) body)
      · simp [h1, h2]
      · by_cases h3 :
            count (asm (hdr (count (asm (hdr (count (asm (hdr (count body)) body))) body))) body) =
              count (asm (hdr (count (asm (hdr (count body)) body))) body)
        · simp [h1, h2, h3]
        · simp [h1, h2, h3]
  · intro env format fmt hof hne hgf
    simp only [buildM, hof, hgf]
    rw [if_neg hne]

def envC4 : BuildEnv where
  workspaceRoot := "/w"
  profileName := "p"
  outputFile := "ctx.md"
  showFileTree := false
  preamble := ""
  outputFormat := some "markdown"
  files := []
  readFile := fun _ => none
  count := fun s => s.length
  collator := fun a b => decide (strLeB a b)
  timestamp := "T"

theorem build_token_convergence_witness : (buildM envC4).isOk = true := by
  rw [build_token_convergence.2 envC4 "markdown" markdownFormatter rfl (by decide) rfl]
  rfl

/-! ## Watcher (src/core/Watcher.ts)

The build scheduler.  VS Code watcher registrations, timers and the
per-session caches are modelled by their observable presence; the ghost
fields `notifications`, `buildsStarted` and `trailingScheduled` record the
externally observable events (`onStateChange` firings, build bodies
actually started, trailing rebuilds scheduled by the `finally` block) and
are never read by the modelled code. -/

inductive WatcherState where
  | Idle
  | Watching
  | Debouncing
  | Building
deriving DecidableEq

structure ProfileM where
  name : String
  outputFile : String
  useGitIgnore : Bool
deriving DecidableEq

structure ConfigM where
  profiles : List ProfileM
  tokenizerModel : String
  gitIgnoreContent : Option String
deriving DecidableEq

/-- `ConfigManager.getProfile`. -/
def ConfigM.getProfile (cfg : ConfigM) (name : String) : Option ProfileM :=
  cfg.profiles.find? (fun p => p.name == name)

structure WatcherModel where
  workspaceRoot : String
  state : WatcherState
  activeProfile : Option ProfileM
  fsWatcher : Bool
  gitIgnoreWatcher : Bool
  debounceTimer : Bool
  tokenCounter : Option String
  gitIgnoreParser : Option String
  isBuilding : Bool
  buildPending : Bool
  notifications : List WatcherState
  buildsStarted : Nat
  trailingScheduled : Nat
deriving DecidableEq

/-- `Watcher.setState`: fire `onStateChange` only when the state changes. -/
def setState (m : WatcherModel) (newState : WatcherState) : WatcherModel :=
  if m.state = newState then m
  else { m with state := newState, notifications := m.notifications ++ [newState] }

/-- The synchronous prefix of `Watcher.triggerBuild`: the concurrency
check (`isBuilding` sets the pending flag and returns), the session guard
(no active profile or token counter returns), then `isBuilding = true` and
the transition to `Building` as the build body begins. -/
def triggerBuildStart (m : WatcherModel) : WatcherModel :=
  if m.isBuilding then { m with buildPending := true }
  else if m.activeProfile.isNone || m.tokenCounter.isNone then m
  else
    setState { m with isBuilding := true, buildsStarted := m.buildsStarted + 1 }
      WatcherState.Building

/-- The `finally` block of `Watcher.triggerBuild`: clear `isBuilding`; when
a request arrived during the build, clear the pending flag and schedule
exactly one trailing rebuild (`setTimeout(() => this.triggerBuild(), 100)`);
otherwise return to `Watching` when watch registrations are present, else
to `Idle`. -/
def triggerBuildFinish (m : WatcherModel) : WatcherModel :=
  let m1 := { m with isBuilding := false }
  if m1.buildPending then
    { m1 with buildPending := false, trailingScheduled := m1.trailingScheduled + 1 }
  else if m1.fsWatcher then setState m1 WatcherState.Watching
  else setState m1 WatcherState.Idle

/-- A whole `await this.triggerBuild()` with no interleaved events: when
the build body starts it also runs to completion. -/
def triggerBuildFull (m : WatcherModel) : WatcherModel :=
  if m.isBuilding then { m with buildPending := true }
  else if m.activeProfile.isNone || m.tokenCounter.isNone then m
  else
    triggerBuildFinish
      (setState { m with isBuilding := true, buildsStarted := m.buildsStarted + 1 }
        WatcherState.Building)

/-- `Watcher.stop`: dispose watchers, clear the timer, discard the profile
and the session caches, reset the concurrency flags, go `Idle`. -/
def stop (m : WatcherModel) : WatcherModel :=
  setState
    { m with fsWatcher := false, gitIgnoreWatcher := false, debounceTimer := false,
             activeProfile := none, tokenCounter := none, gitIgnoreParser := none,
             isBuilding := false, buildPending := false }
    WatcherState.Idle

/-- `Watcher.handleFileEvent`: ignore events without an active profile and
events for the profile's own output path; otherwise restart the debounce
timer and go `Debouncing`. -/
def handleFileEvent (m : WatcherModel) (fsPath : String) : WatcherModel :=
  match m.activeProfile with
  | none => m
  | some profile =>
    if fsPath = joinPath m.workspaceRoot profile.outputFile then m
    else setState { m with debounceTimer := true } WatcherState.Debouncing

/-- `Watcher.loadGitIgnore`: cache the parsed ignore file, `none` when the
read fails. -/
def loadGitIgnore (cfg : ConfigM) (m : WatcherModel) : WatcherModel :=
  { m with gitIgnoreParser := cfg.gitIgnoreContent }

/-- `Watcher.buildOnce(profileName?)`.  The returned `Bool` records whether
the `No profile selected for build.` error was surfaced.  The target name
is `profileName || this.activeProfile?.name` (JS `||`, so an empty
`profileName` falls through to the active profile's name), and the guard
`if (!targetProfileName)` surfaces the error when the target is missing
*or* the empty string; when the scheduler was idle or the target differs
from the active profile, a temporary session is set up from the loaded
configuration; after the build, a formerly idle scheduler drops the
profile and the session caches. -/
def buildOnce (cfg : ConfigM) (m : WatcherModel) (profileName : Option String) :
    WatcherModel × Bool :=
  let fallback := m.activeProfile.map (fun p => p.name)
  let target := match profileName with
    | some t => if t = "" then fallback else some t
    | none => fallback
  match target with
  | none => (m, true)
  | some t =>
    if t = "" then (m, true)
    else
      let wasIdle := m.state == WatcherState.Idle
      if wasIdle || (m.activeProfile.map (fun p => p.name) != some t) then
        match cfg.getProfile t with
        | none => (m, false)
        | some profile =>
          let m1 := { m with activeProfile := some profile,
                             tokenCounter := some cfg.tokenizerModel }
          let m2 := if profile.useGitIgnore then loadGitIgnore cfg m1 else m1
          let m3 := triggerBuildFull m2
          if wasIdle then
            ({ m3 with activeProfile := none, tokenCounter := none,
                       gitIgnoreParser := none }, false)
          else (m3, false)
      else
        let m3 := triggerBuildFull m
        if wasIdle then
          ({ m3 with activeProfile := none, tokenCounter := none,
                     gitIgnoreParser := none }, false)
        else (m3, false)

/-- `n` build requests arriving in sequence (change events reaching
`triggerBuild` while a build may be in flight). -/
def applyTriggers : Nat → WatcherModel → WatcherModel
  | 0, m => m
  | n+1, m => applyTriggers n (triggerBuildStart m)

/-! ## Scheduler claims -/

theorem applyTriggers_building (n : Nat) (m : WatcherModel) (hb : m.isBuilding = true) :
    applyTriggers (n + 1) m = { m with buildPending := true } := by
  induction n generalizing m with
  | zero =>
    show applyTriggers 0 (triggerBuildStart m) = _
    simp [applyTriggers, triggerBuildStart, hb]
  | succ k ih =>
    show applyTriggers (k + 1) (triggerBuildStart m) = _
    have h1 : triggerBuildStart m = { m with buildPending := true } := by
      simp [triggerBuildStart, hb]
    rw [h1, ih _ (by exact hb)]

/-- C6: per scheduler instance at most one build runs at a time — any
number of requests arriving while a build is in flight only set the
pending flag (no further build body starts), and when the in-flight build
finishes exactly one trailing rebuild is scheduled. -/
theorem build_requests_coalesce (m : WatcherModel) (n : Nat)
    (hb : m.isBuilding = true) (hn : 1 ≤ n) :
    (applyTriggers n m).buildsStarted = m.buildsStarted ∧
      (applyTriggers n m).isBuilding = true ∧
      (applyTriggers n m).buildPending = true ∧
      (triggerBuildFinish (applyTriggers n m)).trailingScheduled =
        m.trailingScheduled + 1 ∧
      (triggerBuildFinish (applyTriggers n m)).buildPending = false ∧
      (triggerBuildFinish (applyTriggers n m)).buildsStarted = m.buildsStarted := by
  obtain ⟨k, rfl⟩ : ∃ k, n = k + 1 := ⟨n - 1, (Nat.succ_pred_eq_of_pos hn).symm⟩
  rw [applyTriggers_building k m hb]
  refine ⟨rfl, hb, rfl, ?_, ?_, ?_⟩ <;> simp [triggerBuildFinish]

def mC6 : WatcherModel where
  workspaceRoot := "/proj"
  state := WatcherState.Building
  activeProfile := some { name := "a", outputFile := "out.md", useGitIgnore := false }
  fsWatcher := true
  gitIgnoreWatcher := false
  debounceTimer := false
  tokenCounter := some "gpt-4o"
  gitIgnoreParser := none
  isBuilding := true
  buildPending := false
  notifications := []
  buildsStarted := 1
  trailingScheduled := 0

theorem build_requests_coalesce_witness :
    (applyTriggers 3 mC6).buildsStarted = 1 ∧
      (applyTriggers 3 mC6).isBuilding = true ∧
      (applyTriggers 3 mC6).buildPending = true ∧
      (triggerBuildFinish (applyTriggers 3 mC6)).trailingScheduled = 1 ∧
      (triggerBuildFinish (applyTriggers 3 mC6)).buildPending = false ∧
      (triggerBuildFinish (applyTriggers 3 mC6)).buildsStarted = 1 :=
  build_requests_coalesce mC6 3 rfl (by decide)

/-- C10: the scheduler notifies external listeners only on an actual state
change: `setState` leaves the notification stream unchanged exactly when
the new state equals the current one; `stop()` while already `Idle` fires
nothing; a change event while already `Debouncing` (with an active profile,
for a path other than the output file or not) fires nothing. -/
theorem notifications_only_on_state_change :
    (∀ (m : WatcherModel) (s : WatcherState),
        (setState m s).notifications = m.notifications ↔ s = m.state) ∧
      (∀ m : WatcherModel, m.state = WatcherState.Idle →
        (stop m).notifications = m.notifications) ∧
      (∀ (m : WatcherModel) (p : ProfileM) (fsPath : String),
        m.state = WatcherState.Debouncing → m.activeProfile = some p →
        (handleFileEvent m fsPath).notifications = m.notifications) := by
  refine ⟨?_, ?_, ?_⟩
  · intro m s
    unfold setState
    by_cases h : m.state = s
    · simp [h]
    · simp only [h, if_neg, not_false_iff]
      constructor
      · intro he
        have := congrArg List.length he
        simp at this
      · intro he
        exact absurd he.symm h
  · intro m hm
    unfold stop setState
    simp [hm]
  · intro m p fsPath hst hap
    unfold handleFileEvent
    rw [hap]
    by_cases hpath : fsPath = joinPath m.workspaceRoot p.outputFile
    · simp [hpath]
    · simp only [hpath, if_neg, not_false_iff]
      unfold setState
      simp [hst]

def mC10 : WatcherModel where
  workspaceRoot := "/proj"
  state := WatcherState.Idle
  activeProfile := none
  fsWatcher := false
  gitIgnoreWatcher := false
  debounceTimer := false
  tokenCounter := none
  gitIgnoreParser := none
  isBuilding := false
  buildPending := false
  notifications := []
  buildsStarted := 0
  trailingScheduled := 0

theorem notifications_only_on_state_change_witness :
    (stop mC10).notifications = ([] : List WatcherState) :=
  notifications_only_on_state_change.2.1 mC10 rfl

def profA : ProfileM where
  name := "a"
  outputFile := "out-a.md"
  useGitIgnore := false

def profB : ProfileM where
  name := "b"
  outputFile := "out-b.md"
  useGitIgnore := false

def cfgC7 : ConfigM where
  profiles := [profA, profB]
  tokenizerModel := "gpt-4o"
  gitIgnoreContent := none

def watchingA : WatcherModel where
  workspaceRoot := "/proj"
  state := WatcherState.Watching
  activeProfile := some profA
  fsWatcher := true
  gitIgnoreWatcher := false
  debounceTimer := false
  tokenCounter := some "gpt-4o"
  gitIgnoreParser := none
  isBuilding := false
  buildPending := false
  notifications := []
  buildsStarted := 0
  trailingScheduled := 0

def idleC7 : WatcherModel where
  workspaceRoot := "/proj"
  state := WatcherState.Idle
  activeProfile := none
  fsWatcher := false
  gitIgnoreWatcher := false
  debounceTimer := false
  tokenCounter := none
  gitIgnoreParser := none
  isBuilding := false
  buildPending := false
  notifications := []
  buildsStarted := 0
  trailingScheduled := 0

/-- C7 counterexample: the claim fails on the code in two concrete ways.
While watching profile `a`, `buildOnce("b")` runs against profile `b` and
permanently switches the session's active profile instead of "running a
build cycle against the current profile" and leaving it unchanged.  And
while `Idle`, `buildOnce()` with no argument surfaces the
`No profile selected` error and adopts no profile and starts no build,
even though the loaded configuration has profiles whose first entry acts
as the configured default. -/
theorem buildOnce_claim_counterexample :
    ((buildOnce cfgC7 watchingA (some "b")).1.activeProfile = some profB ∧
        profB ≠ profA ∧ watchingA.activeProfile = some profA) ∧
      (buildOnce cfgC7 idleC7 none = (idleC7, true) ∧
        (buildOnce cfgC7 idleC7 none).1.buildsStarted = 0 ∧
        cfgC7.profiles ≠ []) := by
  refine ⟨⟨?_, by decide, rfl⟩, ⟨?_, rfl, by decide⟩⟩ <;> rfl

/-- C7 amended: `buildOnce(profileName?)` behaves as follows.  Called while
`Idle` with an explicit (non-empty) name of an existing profile, it adopts
that profile for exactly one build cycle and then reverts to `Idle` with
the active profile, token counter and ignore parser cleared.  Called with
no name (or an empty name) while no profile is active — or with no name
while the active profile's name is the empty string, which the falsy guard
`if (!targetProfileName)` also rejects — it surfaces the
`No profile selected` error and performs no build; the configured default
profile is not consulted.  Called while a profile (with a non-empty name)
is active, with no name or with the active profile's own name, it runs one
build cycle against the current profile and leaves the watch state, active
profile and session caches unchanged.  Called while a profile is active
with a different (non-empty) existing profile name, it switches the
session to the named profile (re-initializing the token counter) without
reverting. -/
theorem buildOnce_profile_semantics :
    (∀ (cfg : ConfigM) (m : WatcherModel) (t : String) (p : ProfileM),
        m.state = WatcherState.Idle → m.fsWatcher = false →
        m.isBuilding = false → m.buildPending = false →
        t ≠ "" → cfg.getProfile t = some p →
        (buildOnce cfg m (some t)).1.activeProfile = none ∧
          (buildOnce cfg m (some t)).1.tokenCounter = none ∧
          (buildOnce cfg m (some t)).1.gitIgnoreParser = none ∧
          (buildOnce cfg m (some t)).1.state = WatcherState.Idle ∧
          (buildOnce cfg m (some t)).1.buildsStarted = m.buildsStarted + 1) ∧
      (∀ (cfg : ConfigM) (m : WatcherModel) (nameArg : Option String),
        m.activeProfile = none → (nameArg = none ∨ nameArg = some "") →
        buildOnce cfg m nameArg = (m, true)) ∧
      (∀ (cfg : ConfigM) (m : WatcherModel) (p : ProfileM),
        m.activeProfile = some p → p.name = "" →
        buildOnce cfg m none = (m, true)) ∧
      (∀ (cfg : ConfigM) (m : WatcherModel) (p : ProfileM) (model : String),
        m.state = WatcherState.Watching → m.activeProfile = some p →
        p.name ≠ "" → m.tokenCounter = some model → m.fsWatcher = true →
        m.isBuilding = false → m.buildPending = false →
        (buildOnce cfg m none).1.activeProfile = some p ∧
          (buildOnce cfg m none).1.tokenCounter = some model ∧
          (buildOnce cfg m none).1.gitIgnoreParser = m.gitIgnoreParser ∧
          (buildOnce cfg m none).1.state = WatcherState.Watching ∧
          (buildOnce cfg m none).1.buildsStarted = m.buildsStarted + 1) ∧
      (∀ (cfg : ConfigM) (m : WatcherModel) (p : ProfileM) (model : String),
        m.state = WatcherState.Watching → m.activeProfile = some p →
        p.name ≠ "" → m.tokenCounter = some model → m.fsWatcher = true →
        m.isBuilding = false → m.buildPending = false →
        (buildOnce cfg m (some p.name)).1.activeProfile = some p ∧
          (buildOnce cfg m (some p.name)).1.tokenCounter = some model ∧
          (buildOnce cfg m (some p.name)).1.gitIgnoreParser = m.gitIgnoreParser ∧
          (buildOnce cfg m (some p.name)).1.state = WatcherState.Watching ∧
          (buildOnce cfg m (some p.name)).1.buildsStarted = m.buildsStarted + 1) ∧
      (∀ (cfg : ConfigM) (m : WatcherModel) (p q : ProfileM) (t : String),
        m.state = WatcherState.Watching → m.activeProfile = some p →
        m.fsWatcher = true → m.isBuilding = false → m.buildPending = false →
        t ≠ "" → t ≠ p.name → cfg.getProfile t = some q →
        (buildOnce cfg m (some t)).1.activeProfile = some q ∧
          (buildOnce cfg m (some t)).1.tokenCounter = some cfg.tokenizerModel ∧
          (buildOnce cfg m (some t)).1.state = WatcherState.Watching ∧
          (buildOnce cfg m (some t)).1.buildsStarted = m.buildsStarted + 1) := by
  refine ⟨?_, ?_, ?_, ?_, ?_, ?_⟩
  · intro cfg m t p hst hfs hib hbp hne hp
    by_cases hg : p.useGitIgnore <;>
      simp [buildOnce, hne, hst, hp, hg, loadGitIgnore, triggerBuildFull, hib,
        triggerBuildFinish, setState, hfs, hbp]
  · intro cfg m nameArg hap hn
    rcases hn with rfl | rfl <;> simp [buildOnce, hap]
  · intro cfg m p hap hpe
    simp [buildOnce, hap, hpe]
  · intro cfg m p model hst hap hpn htc hfs hib hbp
    simp [buildOnce, hst, hap, hpn, triggerBuildFull, hib, htc,
      triggerBuildFinish, setState, hfs, hbp]
  · intro cfg m p model hst hap hpn htc hfs hib hbp
    simp [buildOnce, hst, hap, hpn, triggerBuildFull, hib, htc,
      triggerBuildFinish, setState, hfs, hbp]
  · intro cfg m p q t hst hap hfs hib hbp hne hpn hq
    by_cases hg : q.useGitIgnore <;>
      simp [buildOnce, hne, hst, hap, hpn, hq, hg, loadGitIgnore, triggerBuildFull,
        hib, triggerBuildFinish, setState, hfs, hbp, Ne.symm hpn]

theorem buildOnce_profile_semantics_witness :
    (buildOnce cfgC7 idleC7 (some "a")).1.activeProfile = none ∧
      (buildOnce cfgC7 idleC7 (some "a")).1.tokenCounter = none ∧
      (buildOnce cfgC7 idleC7 (some "a")).1.gitIgnoreParser = none ∧
      (buildOnce cfgC7 idleC7 (some "a")).1.state = WatcherState.Idle ∧
      (buildOnce cfgC7 idleC7 (some "a")).1.buildsStarted = 0 + 1 :=
  buildOnce_profile_semantics.1 cfgC7 idleC7 "a" profA rfl rfl rfl rfl
    (by decide) rfl
